import Mathlib

/-!
Verification of the `ggi` publishing scripts
(`tools/add-post.py` and `tools/secondthoughts-extractor.py`).

The development shallowly embeds the Python code: pure computations become
Lean functions over `Nat` / `List Char`, the stateful HTML visitor becomes a
fold over a tag-event stream, and the two `main` entry points become
functions from an explicit environment (which filesystem paths exist, which
external steps succeed) to a record of exit code, stdout lines and
filesystem actions.  Machine arithmetic notes are given at each definition.
-/

set_option autoImplicit false

namespace GGI

/-! ### Header image normalizer (`add-post.py`, `process_image`)

The Python code computes `current_ratio = width / height` and
`target = 4 / 3` in IEEE doubles and compares them, then crops with
`new_width = int(height * target)` resp. `new_height = int(width / target)`.
For every dimension a real raster image can have (far below `2^51`) these
float computations agree exactly with the rational comparisons `3*w ≷ 4*h`
and with `⌊4h/3⌋` resp. `⌊w/(4/3)⌋ = ⌊3w/4⌋`, which is how they are embedded
here; `int` truncation on non-negative values is floor, i.e. `Nat` division. -/

/-- Result of the crop step of `process_image`: output dimensions and the
crop box offsets (`left`, `top`); an uncropped side has offset `0`. -/
structure CropOut where
  width : Nat
  height : Nat
  left : Nat
  top : Nat
  deriving DecidableEq, Repr

/-- Embedding of the dimension logic of `process_image` (`add-post.py`
lines 131-148): compare `width/height` with `4/3`, center-crop the long
side, keep the image unchanged at exactly `4:3`. -/
def process_image_dims (width height : Nat) : CropOut :=
  if 4 * height < 3 * width then
    -- too wide: new_width = int(height * (4/3)), left = (width - new_width) // 2
    let new_width := height * 4 / 3
    { width := new_width, height := height, left := (width - new_width) / 2, top := 0 }
  else if 3 * width < 4 * height then
    -- too tall: new_height = int(width / (4/3)), top = (height - new_height) // 2
    let new_height := width * 3 / 4
    { width := width, height := new_height, left := 0, top := (height - new_height) / 2 }
  else
    { width := width, height := height, left := 0, top := 0 }

/-- C1: an image whose ratio differs from 4:3 is center-cropped: when
`W/H > 4/3` the output is `⌊H*4/3⌋ × H` with left offset
`⌊(W - new_width)/2⌋`; when `W/H < 4/3` the output is `W × ⌊W/(4/3)⌋`,
centered top/bottom. -/
theorem c1_center_crop (w h : Nat) :
    (4 * h < 3 * w →
      process_image_dims w h = ⟨h * 4 / 3, h, (w - h * 4 / 3) / 2, 0⟩) ∧
    (3 * w < 4 * h →
      process_image_dims w h = ⟨w, w * 3 / 4, 0, (h - w * 3 / 4) / 2⟩) := by
  constructor <;> intro hlt
  · simp only [process_image_dims]
    rw [if_pos hlt]
  · simp only [process_image_dims]
    rw [if_neg (by omega), if_pos hlt]

/-- Witness for C1 at a landscape input `8×3` and a portrait input `4×6`. -/
theorem c1_center_crop_witness :
    process_image_dims 8 3 = ⟨4, 3, 2, 0⟩ ∧
    process_image_dims 4 6 = ⟨4, 3, 0, 1⟩ :=
  ⟨(c1_center_crop 8 3).1 (by decide), (c1_center_crop 4 6).2 (by decide)⟩

/-- C4: an image at exactly 4:3 (`3W = 4H`) is not cropped: output
dimensions equal input dimensions. -/
theorem c4_exact_no_crop (w h : Nat) (hr : 3 * w = 4 * h) :
    process_image_dims w h = ⟨w, h, 0, 0⟩ := by
  simp only [process_image_dims]
  rw [if_neg (by omega), if_neg (by omega)]

/-- Witness for C4 at the exact-ratio input `4×3`. -/
theorem c4_exact_no_crop_witness : process_image_dims 4 3 = ⟨4, 3, 0, 0⟩ :=
  c4_exact_no_crop 4 3 (by decide)

/-- C10: the normalizer never enlarges: each output dimension is at most
the input one, and in every branch at least one dimension is kept whole. -/
theorem c10_never_enlarges (w h : Nat) :
    (process_image_dims w h).width ≤ w ∧
    (process_image_dims w h).height ≤ h ∧
    ((process_image_dims w h).width = w ∨ (process_image_dims w h).height = h) := by
  simp only [process_image_dims]
  split
  · exact ⟨show h * 4 / 3 ≤ w by omega, Nat.le_refl h, Or.inr rfl⟩
  · split
    · exact ⟨Nat.le_refl w, show w * 3 / 4 ≤ h by omega, Or.inl rfl⟩
    · exact ⟨Nat.le_refl w, Nat.le_refl h, Or.inl rfl⟩

/-! ### Listing patcher (`add-post.py`, `update_writing_spotlight`)

The Python code runs `re.search(r'(const postSlugs = \[\s*\n)(\s*)', content)`
and splices `f'{indent}"{slug}",\n'` in at `match.end(1)`.  Contents are
embedded as code-point lists (`List Char`); the regex engine is embedded
only for this one pattern: the literal, then the greedy `\s*\n` (the
whitespace run up to and including its last newline), then the greedy `\s*`
capture of the remaining newline-free whitespace (the indentation). -/

/-- Python regex class `\s`, restricted to its ASCII members. -/
def pyWs (c : Char) : Bool :=
  c = ' ' || c = '\t' || c = '\n' || c = '\r' || c = '\x0b' || c = '\x0c'

/-- Python `s.startswith(p)` over code-point lists. -/
def pyStartswithL (s p : List Char) : Bool :=
  match p, s with
  | [], _ => true
  | _ :: _, [] => false
  | x :: ps, c :: cs => c = x && pyStartswithL cs ps

/-- Maximal leading run of `\s` characters, paired with the remainder. -/
def takeWsRun : List Char → List Char × List Char
  | [] => ([], [])
  | c :: cs =>
    if pyWs c then
      let p := takeWsRun cs
      (c :: p.1, p.2)
    else ([], c :: cs)

/-- Split a whitespace run as `a ++ b` where `a` ends at the run's last
newline (inclusive) and `b` holds no newline; `none` when there is no
newline.  This is how the greedy groups `\s*\n` / `\s*` divide the run. -/
def splitLastNl : List Char → Option (List Char × List Char)
  | [] => none
  | c :: cs =>
    match splitLastNl cs with
    | some p => some (c :: p.1, p.2)
    | none => if c = '\n' then some ([c], cs) else none

/-- The literal head of the patch pattern. -/
def litChars : List Char := "const postSlugs = [".data

/-- Attempt the patch regex at the head of `s`: on success
`s = group1 ++ group2 ++ rest`, where `group1` is the literal plus the
whitespace ending at the run's last newline and `group2` is the remaining
newline-free whitespace (the indentation). -/
def tryMatchAt (s : List Char) : Option (List Char × List Char × List Char) :=
  if pyStartswithL s litChars then
    let p := takeWsRun (s.drop litChars.length)
    match splitLastNl p.1 with
    | some q => some (litChars ++ q.1, q.2, p.2)
    | none => none
  else none

/-- Leftmost match of the patch regex, as `re.search` finds it: returns
`(before, group1, group2, rest)` with the content equal to
`before ++ group1 ++ group2 ++ rest` and no match starting inside `before`. -/
def reSearch : List Char → Option (List Char × List Char × List Char × List Char)
  | [] => none
  | c :: cs =>
    match tryMatchAt (c :: cs) with
    | some m => some ([], m.1, m.2.1, m.2.2)
    | none =>
      match reSearch cs with
      | some m => some (c :: m.1, m.2.1, m.2.2.1, m.2.2.2)
      | none => none

/-- Embedding of `update_writing_spotlight` (`add-post.py` lines 180-190):
find the declaration pattern and splice `indent ++ '"' ++ slug ++ '",\n'`
in right after group 1; `none` models the process-terminating
"Could not find postSlugs array" error. -/
def update_writing_spotlight (slug : List Char) (content : List Char) :
    Option (List Char) :=
  match reSearch content with
  | none => none
  | some (pre, g1, g2, rest) =>
    some (pre ++ g1 ++ (g2 ++ '"' :: (slug ++ ['"', ',', '\n'])) ++ (g2 ++ rest))

theorem pyStartswithL_self_append (p t : List Char) :
    pyStartswithL (p ++ t) p = true := by
  induction p with
  | nil => simp [pyStartswithL]
  | cons c p ih => simp [pyStartswithL, ih]

theorem pyStartswithL_append_of_le (s t p : List Char) (h : p.length ≤ s.length) :
    pyStartswithL (s ++ t) p = pyStartswithL s p := by
  induction p generalizing s with
  | nil => simp [pyStartswithL]
  | cons x p ih =>
    cases s with
    | nil => simp at h
    | cons c s =>
      simp only [List.cons_append, pyStartswithL]
      have := ih s (by simpa using h)
      simp [this]

theorem takeWsRun_ws_append (ws rest : List Char)
    (hws : ∀ c ∈ ws, pyWs c = true)
    (hrest : Option.all (fun c => !pyWs c) rest.head? = true) :
    takeWsRun (ws ++ rest) = (ws, rest) := by
  induction ws with
  | nil =>
    cases rest with
    | nil => rfl
    | cons c cs =>
      simp only [Option.all, List.head?] at hrest
      simp only [List.nil_append, takeWsRun]
      rw [if_neg (by simpa using hrest)]
  | cons c ws ih =>
    have hih := ih (fun d hd => hws d (List.mem_cons_of_mem c hd))
    simp only [List.cons_append, takeWsRun]
    rw [if_pos (hws c (List.mem_cons_self c ws))]
    simp [hih]

theorem splitLastNl_of_no_nl (l : List Char) (h : ∀ c ∈ l, c ≠ '\n') :
    splitLastNl l = none := by
  induction l with
  | nil => rfl
  | cons c cs ih =>
    simp only [splitLastNl]
    rw [ih (fun d hd => h d (List.mem_cons_of_mem c hd))]
    exact if_neg (h c (List.mem_cons_self c cs))

theorem splitLastNl_nl_cons (l : List Char) (h : ∀ c ∈ l, c ≠ '\n') :
    splitLastNl ('\n' :: l) = some (['\n'], l) := by
  simp only [splitLastNl]
  rw [splitLastNl_of_no_nl l h]
  simp

theorem tryMatchAt_here (indent rest : List Char)
    (hind : ∀ c ∈ indent, pyWs c = true ∧ c ≠ '\n')
    (hrest : Option.all (fun c => !pyWs c) rest.head? = true) :
    tryMatchAt (litChars ++ '\n' :: (indent ++ rest))
      = some (litChars ++ ['\n'], indent, rest) := by
  simp only [tryMatchAt]
  rw [if_pos (pyStartswithL_self_append litChars ('\n' :: (indent ++ rest)))]
  rw [List.drop_left litChars ('\n' :: (indent ++ rest))]
  have hrun : takeWsRun ('\n' :: (indent ++ rest)) = ('\n' :: indent, rest) := by
    have := takeWsRun_ws_append ('\n' :: indent) rest
      (by
        intro c hc
        rcases List.mem_cons.mp hc with h1 | h2
        · subst h1; rfl
        · exact (hind c h2).1)
      hrest
    simpa using this
  rw [hrun]
  rw [splitLastNl_nl_cons indent (fun c hc => (hind c hc).2)]

theorem reSearch_cons_of_match (c : Char) (cs : List Char)
    (m : List Char × List Char × List Char)
    (h : tryMatchAt (c :: cs) = some m) :
    reSearch (c :: cs) = some ([], m.1, m.2.1, m.2.2) := by
  simp [reSearch, h]

theorem reSearch_cons_of_no_match (c : Char) (cs : List Char)
    (h : tryMatchAt (c :: cs) = none) :
    reSearch (c :: cs) = (reSearch cs).map (fun m => (c :: m.1, m.2)) := by
  simp only [reSearch, h]
  cases reSearch cs with
  | none => rfl
  | some m => rfl

theorem reSearch_append_of_no_match (pre tail : List Char)
    (h : ∀ i < pre.length, pyStartswithL ((pre ++ tail).drop i) litChars = false) :
    reSearch (pre ++ tail)
      = (reSearch tail).map (fun m => (pre ++ m.1, m.2)) := by
  induction pre with
  | nil =>
    cases htail : reSearch tail <;> simp [htail]
  | cons c pre ih =>
    have h0 : pyStartswithL (c :: (pre ++ tail)) litChars = false := by
      simpa using h 0 (Nat.succ_pos pre.length)
    have hm : tryMatchAt (c :: (pre ++ tail)) = none := by
      simp [tryMatchAt, h0]
    rw [List.cons_append, reSearch_cons_of_no_match c (pre ++ tail) hm]
    rw [ih (fun i hi => by simpa using h (i + 1) (Nat.succ_lt_succ hi))]
    cases htail : reSearch tail with
    | none => rfl
    | some m => rfl

theorem update_match_shape (slug pre indent rest : List Char)
    (hpre : ∀ i < pre.length,
      pyStartswithL ((pre ++ litChars).drop i) litChars = false)
    (hind : ∀ c ∈ indent, pyWs c = true ∧ c ≠ '\n')
    (hrest : Option.all (fun c => !pyWs c) rest.head? = true) :
    update_writing_spotlight slug (pre ++ litChars ++ '\n' :: (indent ++ rest))
      = some (pre ++ litChars ++ '\n' ::
          (indent ++ '"' :: (slug ++ ['"', ',', '\n']) ++ (indent ++ rest))) := by
  have hpre' : ∀ i < pre.length,
      pyStartswithL ((pre ++ (litChars ++ '\n' :: (indent ++ rest))).drop i)
        litChars = false := by
    intro i hi
    rw [show pre ++ (litChars ++ '\n' :: (indent ++ rest))
          = (pre ++ litChars) ++ '\n' :: (indent ++ rest) by
        simp [List.append_assoc]]
    rw [List.drop_append_of_le_length
      (by simp; omega)]
    rw [pyStartswithL_append_of_le _ _ _
      (by
        simp only [List.length_drop, List.length_append]
        omega)]
    exact hpre i hi
  have hsearch :
      reSearch (pre ++ (litChars ++ '\n' :: (indent ++ rest)))
        = some (pre, litChars ++ ['\n'], indent, rest) := by
    rw [reSearch_append_of_no_match pre _ hpre']
    have hne : litChars ++ '\n' :: (indent ++ rest)
        = 'c' :: ("onst postSlugs = [".data ++ '\n' :: (indent ++ rest)) := rfl
    rw [hne]
    rw [reSearch_cons_of_match _ _ (litChars ++ ['\n'], indent, rest)
      (by
        rw [← hne]
        exact tryMatchAt_here indent rest hind hrest)]
    simp
  simp only [update_writing_spotlight]
  rw [show pre ++ litChars ++ '\n' :: (indent ++ rest)
        = pre ++ (litChars ++ '\n' :: (indent ++ rest)) by
      simp [List.append_assoc]]
  rw [hsearch]
  simp [List.append_assoc]

/-- C3: on a content matching the declaration pattern — anything not
containing an earlier match, then `const postSlugs = [`, a newline, the
array's indentation, and the array body — the patch inserts the quoted
identifier with that indentation and a trailing comma immediately after the
declaration line, in front of all existing elements, leaving everything
else (in particular the order of the existing elements) unchanged. -/
theorem c3_listing_insert (slug pre indent rest : List Char)
    (hpre : ∀ i < pre.length,
      pyStartswithL ((pre ++ litChars).drop i) litChars = false)
    (hind : ∀ c ∈ indent, pyWs c = true ∧ c ≠ '\n')
    (hrest : Option.all (fun c => !pyWs c) rest.head? = true) :
    update_writing_spotlight slug (pre ++ litChars ++ '\n' :: (indent ++ rest))
      = some (pre ++ litChars ++ '\n' ::
          (indent ++ '"' :: (slug ++ ['"', ',', '\n']) ++ (indent ++ rest))) :=
  update_match_shape slug pre indent rest hpre hind hrest

/-- Witness for C3: the spec's fixture, patched with identifier `c`. -/
theorem c3_listing_insert_witness :
    update_writing_spotlight "c".data
        "const postSlugs = [\n  \"a\",\n  \"b\",\n];".data
      = some "const postSlugs = [\n  \"c\",\n  \"a\",\n  \"b\",\n];".data := by
  have h := c3_listing_insert "c".data [] [' ', ' '] "\"a\",\n  \"b\",\n];".data
    (fun i hi => absurd hi (Nat.not_lt_zero i)) (by decide) (by decide)
  exact h

/-- C8: patching a matching content twice with the same identifier inserts
the quoted entry twice — the patcher performs no deduplication or presence
check, so the array ends up with two copies of the entry for `slug`. -/
theorem c8_no_dedup (slug pre indent rest : List Char)
    (hpre : ∀ i < pre.length,
      pyStartswithL ((pre ++ litChars).drop i) litChars = false)
    (hind : ∀ c ∈ indent, pyWs c = true ∧ c ≠ '\n')
    (hrest : Option.all (fun c => !pyWs c) rest.head? = true) :
    (update_writing_spotlight slug
        (pre ++ litChars ++ '\n' :: (indent ++ rest))).bind
      (update_writing_spotlight slug)
      = some (pre ++ litChars ++ '\n' ::
          (indent ++ '"' :: (slug ++ ['"', ',', '\n']) ++
            (indent ++ '"' :: (slug ++ ['"', ',', '\n']) ++
              (indent ++ rest)))) := by
  rw [update_match_shape slug pre indent rest hpre hind hrest]
  rw [Option.some_bind]
  have h2 := update_match_shape slug pre indent
    ('"' :: (slug ++ ['"', ',', '\n']) ++ (indent ++ rest))
    hpre hind
    (by simp [List.cons_append, List.head?, Option.all, pyWs])
  rw [show pre ++ litChars ++ '\n' ::
        (indent ++ '"' :: (slug ++ ['"', ',', '\n']) ++ (indent ++ rest))
      = pre ++ litChars ++ '\n' ::
        (indent ++ ('"' :: (slug ++ ['"', ',', '\n']) ++ (indent ++ rest))) by
    simp [List.append_assoc]]
  rw [h2]
  simp [List.append_assoc]

/-- Witness for C8: the spec's fixture patched twice with identifier `c`
ends up with two `"c"` entries. -/
theorem c8_no_dedup_witness :
    (update_writing_spotlight "c".data
        "const postSlugs = [\n  \"a\",\n  \"b\",\n];".data).bind
      (update_writing_spotlight "c".data)
      = some "const postSlugs = [\n  \"c\",\n  \"c\",\n  \"a\",\n  \"b\",\n];".data := by
  have h := c8_no_dedup "c".data [] [' ', ' '] "\"a\",\n  \"b\",\n];".data
    (fun i hi => absurd hi (Nat.not_lt_zero i)) (by decide) (by decide)
  exact h

/-! ### Metadata extractor (`secondthoughts-extractor.py`)

Strings are embedded as code-point lists.  The `ArticleParser` visitor is a
fold over the tag-event stream that Python's `html.parser` (standard
library, outside this repository) delivers for the fetched page; the raw
page text is kept alongside for the `datePublished` regex search.  The two
entry-point file writers are embedded as an action log, with the relevant
filesystem facts (which directories exist) as an explicit environment. -/

/-- A tag event as `html.parser` delivers it to the visitor: a start tag
with its attribute list (an attribute value is `none` for a bare
attribute), a text chunk, or an end tag. -/
inductive HtmlEvent where
  | startTag (tag : List Char) (attrs : List (List Char × Option (List Char)))
  | textData (data : List Char)
  | endTag (tag : List Char)
  deriving DecidableEq, Repr

/-- Python `str.strip()`: both-ends whitespace trim (ASCII whitespace). -/
def pyStrip (l : List Char) : List Char :=
  ((l.dropWhile pyWs).reverse.dropWhile pyWs).reverse

/-- `'k' in dict(attrs)`: the key is bound at all. -/
def hasAttr (attrs : List (List Char × Option (List Char))) (k : List Char) : Bool :=
  attrs.any (fun a => a.1 == k)

/-- `dict(attrs).get(k)`: later duplicate bindings override earlier ones,
so the value of the last binding of `k` is returned. -/
def dictGet (attrs : List (List Char × Option (List Char))) (k : List Char) :
    Option (Option (List Char)) :=
  (attrs.reverse.find? (fun a => a.1 == k)).map (fun a => a.2)

/-- `dict(attrs).get('content', '')`: the empty string when the key is
absent, otherwise the binding's value (`none` for a bare attribute). -/
def getContentDefault (attrs : List (List Char × Option (List Char))) :
    Option (List Char) :=
  match dictGet attrs "content".data with
  | none => some []
  | some v => v

/-- The mutable fields of `ArticleParser`. -/
structure ParserState where
  title : Option (List Char)
  description : Option (List Char)
  author : Option (List Char)
  in_title : Bool
  current_tag : Option (List Char)
  current_attrs : List (List Char × Option (List Char))
  deriving Repr

/-- `ArticleParser.handle_starttag`: besides recording the current tag,
arm `in_title` on a `<title>` with a framework marker, and capture
description (marker required) and author (no marker) from `<meta>` tags. -/
def handle_starttag (st : ParserState) (tag : List Char)
    (attrs : List (List Char × Option (List Char))) : ParserState :=
  let st1 := { st with current_tag := some tag, current_attrs := attrs }
  let marker := hasAttr attrs "data-rh".data || hasAttr attrs "data-preact-helmet".data
  let st2 := if tag == "title".data && marker then { st1 with in_title := true } else st1
  if tag == "meta".data then
    let st3 :=
      if marker && dictGet attrs "name".data == some (some "description".data) then
        { st2 with description := getContentDefault attrs }
      else st2
    if dictGet attrs "name".data == some (some "author".data) then
      { st3 with author := getContentDefault attrs }
    else st3
  else st2

/-- `ArticleParser.handle_data`: while inside a marked title element every
text chunk overwrites `title` (stripped). -/
def handle_data (st : ParserState) (d : List Char) : ParserState :=
  if st.in_title then { st with title := some (pyStrip d) } else st

/-- `ArticleParser.handle_endtag`. -/
def handle_endtag (st : ParserState) (tag : List Char) : ParserState :=
  if tag == "title".data && st.in_title then { st with in_title := false } else st

/-- The freshly constructed `ArticleParser`. -/
def initParser : ParserState :=
  { title := none, description := none, author := none,
    in_title := false, current_tag := none, current_attrs := [] }

/-- One delivered tag event. -/
def processEvent (st : ParserState) : HtmlEvent → ParserState
  | .startTag tag attrs => handle_starttag st tag attrs
  | .textData d => handle_data st d
  | .endTag tag => handle_endtag st tag

/-- `parser.feed(html_content)` over the delivered event stream. -/
def articleParse (evs : List HtmlEvent) : ParserState :=
  evs.foldl processEvent initParser

/-- The literal head of the `datePublished` pattern. -/
def dateLit : List Char := "\"datePublished\":\"".data

/-- `\d{n}` at the head of the input: the digits and the remainder. -/
def matchDigits : Nat → List Char → Option (List Char × List Char)
  | 0, s => some ([], s)
  | _ + 1, [] => none
  | n + 1, c :: s =>
    if c.isDigit then (matchDigits n s).map (fun p => (c :: p.1, p.2)) else none

/-- A fixed literal character at the head of the input. -/
def expectChar (c : Char) : List Char → Option (List Char)
  | [] => none
  | x :: r => if x = c then some r else none

/-- Whether `[^"]*"` can match at the head of the input, i.e. a `"` occurs. -/
def hasQuote : List Char → Bool
  | [] => false
  | c :: s => c = '"' || hasQuote s

/-- The pattern `"datePublished":"(\d{4}-\d{2}-\d{2})T[^"]*"` anchored at
the head of `s`; returns the captured date. -/
def dateMatchAt (s : List Char) : Option (List Char) :=
  if pyStartswithL s dateLit then
    (matchDigits 4 (s.drop dateLit.length)).bind fun p1 =>
    (expectChar '-' p1.2).bind fun t2 =>
    (matchDigits 2 t2).bind fun p2 =>
    (expectChar '-' p2.2).bind fun t4 =>
    (matchDigits 2 t4).bind fun p3 =>
    (expectChar 'T' p3.2).bind fun t6 =>
    if hasQuote t6 then some (p1.1 ++ '-' :: (p2.1 ++ '-' :: p3.1)) else none
  else none

/-- Embedding of `extract_date_published`: leftmost match of the
`datePublished` pattern in the raw page text. -/
def extract_date_published : List Char → Option (List Char)
  | [] => none
  | c :: cs =>
    match dateMatchAt (c :: cs) with
    | some d => some d
    | none => extract_date_published cs

/-- The fetched page: its decoded text and the tag events the standard
tokenizer delivers for it. -/
structure Page where
  raw : List Char
  events : List HtmlEvent
  deriving DecidableEq, Repr

/-- The extractor's failure modes: `ValueError` on URL validation, the
wrapped exception on a fetch failure. -/
inductive ExtError where
  | validation (msg : List Char)
  | fetchFail (msg : List Char)
  deriving DecidableEq, Repr

/-- The required URL prefix. -/
def base_url : List Char := "https://secondthoughts.ai/p/".data

/-- The dictionary `fetch_and_extract` returns. -/
structure ArticleInfo where
  variable_portion : List Char
  title : Option (List Char)
  description : Option (List Char)
  author : Option (List Char)
  date_published : Option (List Char)
  deriving DecidableEq, Repr

/-- Embedding of `fetch_and_extract` (lines 67-103): validate the URL
before any network or filesystem activity, then extract the fields from
the fetched page.  The network outcome is the parameter `fetched`. -/
def fetch_and_extract (url : List Char) (fetched : Except (List Char) Page) :
    Except ExtError ArticleInfo :=
  if pyStartswithL url base_url then
    let v := url.drop base_url.length
    if v = [] then
      Except.error (.validation "URL must include a path after /p/".data)
    else
      match fetched with
      | .error e => Except.error (.fetchFail ("Failed to fetch URL: ".data ++ e))
      | .ok page =>
        let st := articleParse page.events
        Except.ok { variable_portion := v, title := st.title,
                    description := st.description, author := st.author,
                    date_published := extract_date_published page.raw }
  else
    Except.error (.validation ("URL must start with ".data ++ base_url))

/-- Python `x or ''` on an optional string. -/
def pyOrEmpty (o : Option (List Char)) : List Char := o.getD []

/-- A filesystem write performed by the extractor. -/
inductive FsAction where
  | writeFile (path content : List Char)
  | makeDirs (path : List Char)
  deriving DecidableEq, Repr

/-- Which directories exist when the extractor runs (all actual writes are
assumed to succeed at the OS level). -/
structure ExtractorEnv where
  postsDir : Bool
  imagesBase : Bool
  slugDir : Bool
  deriving DecidableEq, Repr

/-- Observable outcome of one extractor run. -/
structure RunResult where
  exitCode : Nat
  stdout : List (List Char)
  fsActions : List FsAction
  deriving DecidableEq, Repr

/-- The front-matter stub `create_mdx_file` writes. -/
def mdxContent (title subtitle author date : Option (List Char)) : List Char :=
  "---\ntitle: \"".data ++ pyOrEmpty title ++
  "\"\nsubtitle: \"".data ++ pyOrEmpty subtitle ++
  "\"\nauthors: \"".data ++ pyOrEmpty author ++
  "\"\ndate: \"".data ++ pyOrEmpty date ++
  "\"\n---\n".data

/-- Embedding of the extractor's `main` (lines 157-194): run
`fetch_and_extract` (any exception prints to stderr and exits 1), print the
five fields to stdout, then `create_mdx_file` (exits 1 when `posts` is
missing, else writes the stub and prints a diagnostic) and
`create_image_directory` (creates `public/post-images` silently when
missing, then the slug directory with a diagnostic either way). -/
def extractor_main (url : List Char) (fetched : Except (List Char) Page)
    (env : ExtractorEnv) : RunResult :=
  match fetch_and_extract url fetched with
  | .error _ => { exitCode := 1, stdout := [], fsActions := [] }
  | .ok info =>
    let outLines := [info.variable_portion, pyOrEmpty info.title,
      pyOrEmpty info.description, pyOrEmpty info.author,
      pyOrEmpty info.date_published]
    if info.variable_portion = [] then
      { exitCode := 1, stdout := outLines, fsActions := [] }
    else if env.postsDir = false then
      { exitCode := 1, stdout := outLines, fsActions := [] }
    else
      let mdxPath := "posts/".data ++ info.variable_portion ++ ".mdx".data
      let imgDir := "public/post-images/".data ++ info.variable_portion
      let baseActs :=
        if env.imagesBase then [] else [FsAction.makeDirs "public/post-images".data]
      let dirStep :=
        if env.slugDir then
          (([] : List FsAction), ["Image directory already exists: ".data ++ imgDir])
        else
          ([FsAction.makeDirs imgDir], ["Created image directory: ".data ++ imgDir])
      { exitCode := 0,
        stdout := outLines ++ (["Created MDX file: ".data ++ mdxPath] ++ dirStep.2),
        fsActions := [FsAction.writeFile mdxPath
            (mdxContent info.title info.description info.author info.date_published)]
          ++ (baseActs ++ dirStep.1) }

theorem fae_validation_of_bad_url (url : List Char)
    (fetched : Except (List Char) Page)
    (h : pyStartswithL url base_url = false ∨ url = base_url) :
    ∃ msg, fetch_and_extract url fetched = Except.error (ExtError.validation msg) := by
  rcases h with h1 | h2
  · exact ⟨"URL must start with ".data ++ base_url, by simp [fetch_and_extract, h1]⟩
  · subst h2
    refine ⟨"URL must include a path after /p/".data, ?_⟩
    have hsw : pyStartswithL base_url base_url = true := by
      simpa using pyStartswithL_self_append base_url []
    simp [fetch_and_extract, hsw, List.drop_length]

/-- C2: a URL that does not start with `https://secondthoughts.ai/p/`, or
that has nothing after that prefix, makes `fetch_and_extract` raise a
validation error before fetching, so the run exits non-zero having written
no file and created no directory. -/
theorem c2_validation_no_files (url : List Char)
    (fetched : Except (List Char) Page) (env : ExtractorEnv)
    (h : pyStartswithL url base_url = false ∨ url = base_url) :
    (∃ msg, fetch_and_extract url fetched = Except.error (ExtError.validation msg)) ∧
    (extractor_main url fetched env).exitCode = 1 ∧
    (extractor_main url fetched env).fsActions = [] := by
  obtain ⟨msg, hm⟩ := fae_validation_of_bad_url url fetched h
  exact ⟨⟨msg, hm⟩, by simp [extractor_main, hm], by simp [extractor_main, hm]⟩

/-- Witness for C2: a URL on the wrong host, and the bare prefix URL. -/
theorem c2_validation_no_files_witness :
    ((∃ msg, fetch_and_extract "https://example.org/x".data (Except.error [])
        = Except.error (ExtError.validation msg)) ∧
      (extractor_main "https://example.org/x".data (Except.error [])
          ⟨true, true, true⟩).exitCode = 1 ∧
      (extractor_main "https://example.org/x".data (Except.error [])
          ⟨true, true, true⟩).fsActions = []) ∧
    ((∃ msg, fetch_and_extract "https://secondthoughts.ai/p/".data (Except.error [])
        = Except.error (ExtError.validation msg)) ∧
      (extractor_main "https://secondthoughts.ai/p/".data (Except.error [])
          ⟨true, true, true⟩).exitCode = 1 ∧
      (extractor_main "https://secondthoughts.ai/p/".data (Except.error [])
          ⟨true, true, true⟩).fsActions = []) :=
  ⟨c2_validation_no_files _ _ _ (Or.inl (by decide)),
   c2_validation_no_files _ _ _ (Or.inr rfl)⟩

theorem fae_ok_portion_ne_nil (url : List Char) (fetched : Except (List Char) Page)
    (info : ArticleInfo) (h : fetch_and_extract url fetched = Except.ok info) :
    info.variable_portion ≠ [] := by
  by_cases h1 : pyStartswithL url base_url
  · by_cases h2 : url.drop base_url.length = []
    · simp [fetch_and_extract, h1, h2] at h
    · cases fetched with
      | error e => simp [fetch_and_extract, h1, h2] at h
      | ok page =>
        simp only [fetch_and_extract, h1, if_true, if_neg h2] at h
        obtain rfl : _ = info := Except.ok.inj h
        exact h2
  · simp [fetch_and_extract, h1] at h

theorem posts_path_ne_imgdir (v : List Char) :
    "posts".data ≠ "public/post-images/".data ++ v := by
  intro h
  have h2 := congrArg List.length h
  rw [List.length_append] at h2
  have e1 : ("posts".data).length = 5 := by decide
  have e2 : ("public/post-images/".data).length = 19 := by decide
  omega

/-- C9: when the `posts` directory is missing, the run exits non-zero
having performed no filesystem write at all; the extractor never creates
the `posts` directory in any run; and when `public/post-images` is missing
on a run that reaches directory creation, it is created on demand. -/
theorem c9_posts_vs_imagebase (url : List Char)
    (fetched : Except (List Char) Page) (env : ExtractorEnv) :
    (env.postsDir = false → (extractor_main url fetched env).exitCode = 1 ∧
      (extractor_main url fetched env).fsActions = []) ∧
    FsAction.makeDirs "posts".data ∉ (extractor_main url fetched env).fsActions ∧
    (env.postsDir = true → env.imagesBase = false →
      ∀ info, fetch_and_extract url fetched = Except.ok info →
        FsAction.makeDirs "public/post-images".data
          ∈ (extractor_main url fetched env).fsActions) := by
  refine ⟨?_, ?_, ?_⟩
  · intro hposts
    cases hfae : fetch_and_extract url fetched with
    | error e => simp [extractor_main, hfae]
    | ok info =>
      have hne := fae_ok_portion_ne_nil url fetched info hfae
      simp [extractor_main, hfae, hne, hposts]
  · cases hfae : fetch_and_extract url fetched with
    | error e => simp [extractor_main, hfae]
    | ok info =>
      have hne1 : "posts".data ≠ "public/post-images".data := by decide
      have hne2 := posts_path_ne_imgdir info.variable_portion
      by_cases hv : info.variable_portion = [] <;>
        by_cases hposts : env.postsDir = false <;>
        by_cases hbase : env.imagesBase <;>
        by_cases hslug : env.slugDir <;>
        simp [extractor_main, hfae, hv, hposts, hbase, hslug, hne1, hne2]
  · intro hposts hbase info hfae
    have hne := fae_ok_portion_ne_nil url fetched info hfae
    simp [extractor_main, hfae, hne, hposts, hbase]

/-- Witness for C9: part one at a fetch-succeeding run with `posts`
missing, part three at a run with `posts` present and the image base
missing. -/
theorem c9_posts_vs_imagebase_witness :
    ((extractor_main "https://secondthoughts.ai/p/post".data
        (Except.ok ⟨[], []⟩) ⟨false, true, true⟩).exitCode = 1 ∧
      (extractor_main "https://secondthoughts.ai/p/post".data
        (Except.ok ⟨[], []⟩) ⟨false, true, true⟩).fsActions = []) ∧
    FsAction.makeDirs "public/post-images".data
      ∈ (extractor_main "https://secondthoughts.ai/p/post".data
          (Except.ok ⟨[], []⟩) ⟨true, false, false⟩).fsActions :=
  ⟨(c9_posts_vs_imagebase "https://secondthoughts.ai/p/post".data
      (Except.ok ⟨[], []⟩) ⟨false, true, true⟩).1 rfl,
   (c9_posts_vs_imagebase "https://secondthoughts.ai/p/post".data
      (Except.ok ⟨[], []⟩) ⟨true, false, false⟩).2.2 rfl rfl
      { variable_portion := "post".data, title := none, description := none,
        author := none, date_published := none } rfl⟩

/-- C5 counterexample: a successful extractor run (exit code 0) whose
standard output has seven lines, not five — after the five metadata lines
the code also prints `Created MDX file: ...` and a `create_image_directory`
diagnostic to stdout, so the output does not consist of five lines. -/
theorem c5_counterexample :
    (extractor_main "https://secondthoughts.ai/p/post".data
        (Except.ok { raw := [], events := [] }) ⟨true, true, false⟩).exitCode = 0 ∧
    (extractor_main "https://secondthoughts.ai/p/post".data
        (Except.ok { raw := [], events := [] }) ⟨true, true, false⟩).stdout.length = 7 := by
  constructor <;> rfl

/-- C5 (amended): on every successful run the standard output BEGINS with
the five metadata lines — identifier, title, description, author, date, an
empty line standing for a missing field — in that fixed order; diagnostic
lines about created files follow them. -/
theorem c5_stdout_first_five (url : List Char) (fetched : Except (List Char) Page)
    (env : ExtractorEnv) (info : ArticleInfo)
    (hok : fetch_and_extract url fetched = Except.ok info)
    (hposts : env.postsDir = true) :
    (extractor_main url fetched env).exitCode = 0 ∧
    (extractor_main url fetched env).stdout.take 5
      = [info.variable_portion, pyOrEmpty info.title, pyOrEmpty info.description,
         pyOrEmpty info.author, pyOrEmpty info.date_published] := by
  have hne := fae_ok_portion_ne_nil url fetched info hok
  have hp : ¬ env.postsDir = false := by simp [hposts]
  constructor
  · simp [extractor_main, hok, hne, hp]
  · simp only [extractor_main, hok, if_neg hne, if_neg hp]
    rw [show (5 : Nat)
        = ([info.variable_portion, pyOrEmpty info.title, pyOrEmpty info.description,
            pyOrEmpty info.author, pyOrEmpty info.date_published]).length from rfl]
    exact List.take_left _ _

/-- Witness for C5 (amended) at a concrete successful run. -/
theorem c5_stdout_first_five_witness :
    (extractor_main "https://secondthoughts.ai/p/post".data
        (Except.ok { raw := [], events := [] }) ⟨true, true, false⟩).exitCode = 0 ∧
    (extractor_main "https://secondthoughts.ai/p/post".data
        (Except.ok { raw := [], events := [] }) ⟨true, true, false⟩).stdout.take 5
      = ["post".data, [], [], [], []] :=
  c5_stdout_first_five _ _ _
    { variable_portion := "post".data, title := none, description := none,
      author := none, date_published := none } rfl rfl

/-- Specification-side view of the title scan: the text chunks delivered
while the `in_title` flag is armed, scanning the event stream with the
flag's evolution (armed by a marked `<title>` start tag, cleared by any
`</title>` end tag). -/
def markedTitleChunks : List HtmlEvent → Bool → List (List Char)
  | [], _ => []
  | .startTag tag attrs :: rest, b =>
    markedTitleChunks rest
      (if tag == "title".data &&
          (hasAttr attrs "data-rh".data || hasAttr attrs "data-preact-helmet".data)
        then true else b)
  | .textData d :: rest, b =>
    (if b then [d] else []) ++ markedTitleChunks rest b
  | .endTag tag :: rest, b =>
    markedTitleChunks rest (if tag == "title".data then false else b)

/-- Overwriting accumulation of stripped chunks, as `handle_data` does. -/
def lastStrip (t : Option (List Char)) : List (List Char) → Option (List Char)
  | [] => t
  | d :: l => lastStrip (some (pyStrip d)) l

theorem handle_starttag_title (st : ParserState) (tag : List Char)
    (attrs : List (List Char × Option (List Char))) :
    (handle_starttag st tag attrs).title = st.title := by
  simp only [handle_starttag]
  repeat' split
  all_goals rfl

theorem handle_starttag_in_title (st : ParserState) (tag : List Char)
    (attrs : List (List Char × Option (List Char))) :
    (handle_starttag st tag attrs).in_title
      = (if tag == "title".data &&
            (hasAttr attrs "data-rh".data || hasAttr attrs "data-preact-helmet".data)
          then true else st.in_title) := by
  simp only [handle_starttag]
  repeat' split
  all_goals simp_all

theorem handle_endtag_title (st : ParserState) (tag : List Char) :
    (handle_endtag st tag).title = st.title := by
  simp only [handle_endtag]
  split <;> simp

theorem handle_endtag_in_title (st : ParserState) (tag : List Char) :
    (handle_endtag st tag).in_title
      = (if tag == "title".data then false else st.in_title) := by
  simp only [handle_endtag]
  cases hb : st.in_title <;> cases hc : (tag == "title".data) <;> simp [hb, hc]

theorem foldl_title (evs : List HtmlEvent) : ∀ st : ParserState,
    (evs.foldl processEvent st).title
      = lastStrip st.title (markedTitleChunks evs st.in_title) := by
  induction evs with
  | nil => intro st; rfl
  | cons e evs ih =>
    intro st
    cases e with
    | startTag tag attrs =>
      rw [List.foldl_cons]
      show (evs.foldl processEvent (handle_starttag st tag attrs)).title = _
      rw [ih (handle_starttag st tag attrs)]
      rw [handle_starttag_title, handle_starttag_in_title]
      rfl
    | textData d =>
      rw [List.foldl_cons]
      show (evs.foldl processEvent (handle_data st d)).title = _
      rw [ih (handle_data st d)]
      cases hb : st.in_title with
      | true => simp [handle_data, hb, markedTitleChunks, lastStrip]
      | false => simp [handle_data, hb, markedTitleChunks, lastStrip]
    | endTag tag =>
      rw [List.foldl_cons]
      show (evs.foldl processEvent (handle_endtag st tag)).title = _
      rw [ih (handle_endtag st tag)]
      rw [handle_endtag_title, handle_endtag_in_title]
      rfl

theorem lastStrip_getLast (l : List (List Char)) : ∀ t : Option (List Char),
    lastStrip t l = match l.getLast? with
      | none => t
      | some d => some (pyStrip d) := by
  induction l with
  | nil => intro t; rfl
  | cons d l ih =>
    intro t
    cases l with
    | nil => rfl
    | cons e l' =>
      show lastStrip (some (pyStrip d)) (e :: l') = _
      rw [ih (some (pyStrip d))]
      rw [List.getLast?_cons_cons]
      cases hg : (e :: l').getLast? with
      | none => exact absurd (List.getLast?_eq_none_iff.mp hg) (by simp)
      | some x => rfl

/-- C6 (amended): the extracted title is the stripped text of the LAST
text chunk delivered inside a marked `<title>` element — each such chunk
overwrites `self.title`, so with several marked title elements the last
one wins, not the first. -/
theorem c6_title_last_chunk (evs : List HtmlEvent) :
    (articleParse evs).title
      = ((markedTitleChunks evs false).getLast?).map pyStrip := by
  have h := foldl_title evs initParser
  rw [articleParse, h]
  rw [lastStrip_getLast]
  show (match (markedTitleChunks evs false).getLast? with
      | none => (none : Option (List Char))
      | some d => some (pyStrip d)) = _
  cases (markedTitleChunks evs false).getLast? <;> rfl

/-- C6 counterexample: a page with two marked `<title>` elements, texts
`A` then `B`.  The first such element's trimmed text is `A`, but the
parser extracts `B` — the claim's "first such element" is false. -/
theorem c6_counterexample :
    ((markedTitleChunks
        [HtmlEvent.startTag "title".data [("data-rh".data, none)],
         HtmlEvent.textData "A".data,
         HtmlEvent.endTag "title".data,
         HtmlEvent.startTag "title".data [("data-preact-helmet".data, none)],
         HtmlEvent.textData "B".data,
         HtmlEvent.endTag "title".data] false).head?).map pyStrip
      = some "A".data ∧
    (articleParse
        [HtmlEvent.startTag "title".data [("data-rh".data, none)],
         HtmlEvent.textData "A".data,
         HtmlEvent.endTag "title".data,
         HtmlEvent.startTag "title".data [("data-preact-helmet".data, none)],
         HtmlEvent.textData "B".data,
         HtmlEvent.endTag "title".data]).title
      = some "B".data ∧
    (articleParse
        [HtmlEvent.startTag "title".data [("data-rh".data, none)],
         HtmlEvent.textData "A".data,
         HtmlEvent.endTag "title".data,
         HtmlEvent.startTag "title".data [("data-preact-helmet".data, none)],
         HtmlEvent.textData "B".data,
         HtmlEvent.endTag "title".data]).title
      ≠ ((markedTitleChunks
        [HtmlEvent.startTag "title".data [("data-rh".data, none)],
         HtmlEvent.textData "A".data,
         HtmlEvent.endTag "title".data,
         HtmlEvent.startTag "title".data [("data-preact-helmet".data, none)],
         HtmlEvent.textData "B".data,
         HtmlEvent.endTag "title".data] false).head?).map pyStrip := by
  refine ⟨rfl, rfl, ?_⟩
  intro h
  exact absurd h (by decide)

/-! ### Publisher orchestration (`add-post.py`, `main`)

Only the step sequencing matters for the resource claim: which steps run,
in which order, and what has happened to the transient downloaded file when
the process exits.  Every failing step calls `sys.exit(1)` at its site. -/

/-- Outcome of each external step of one publisher run.  `gitOk` is the
best-effort `git pull` (its failure only prints a warning). -/
structure PubEnv where
  gitOk : Bool
  extractOk : Bool
  imageIsUrl : Bool
  localExists : Bool
  downloadOk : Bool
  processOk : Bool
  patchOk : Bool
  deriving DecidableEq, Repr

/-- What a publisher run leaves behind: the exit code, whether a transient
download file was ever created, and whether it was removed again. -/
structure PubResult where
  exitCode : Nat
  tempCreated : Bool
  tempRemoved : Bool
  deriving DecidableEq, Repr

/-- Embedding of the publisher `main` (`add-post.py` lines 202-261): git
pull (non-fatal), extractor subprocess, image acquisition (download to a
temp file for a URL source, existence check for a local path), image
normalization, the temp-file cleanup of lines 240-242, then the listing
patch.  A failing `process_image` exits before the cleanup line; the patch
runs after it. -/
def publisher_main (env : PubEnv) : PubResult :=
  if env.extractOk = false then
    { exitCode := 1, tempCreated := false, tempRemoved := false }
  else if env.imageIsUrl then
    if env.downloadOk = false then
      { exitCode := 1, tempCreated := false, tempRemoved := false }
    else if env.processOk = false then
      { exitCode := 1, tempCreated := true, tempRemoved := false }
    else if env.patchOk = false then
      { exitCode := 1, tempCreated := true, tempRemoved := true }
    else
      { exitCode := 0, tempCreated := true, tempRemoved := true }
  else
    if env.localExists = false then
      { exitCode := 1, tempCreated := false, tempRemoved := false }
    else if env.processOk = false then
      { exitCode := 1, tempCreated := false, tempRemoved := false }
    else if env.patchOk = false then
      { exitCode := 1, tempCreated := false, tempRemoved := false }
    else
      { exitCode := 0, tempCreated := false, tempRemoved := false }

/-- C7 counterexample: a remote-image run whose normalization step fails.
The temp file was created, the process exits non-zero, and the cleanup
(which sits after `process_image` in the source) never runs — the
transient file is NOT removed, contradicting "removed by the end of the
run even when image normalization fails". -/
theorem c7_counterexample :
    publisher_main
        { gitOk := true, extractOk := true, imageIsUrl := true,
          localExists := false, downloadOk := true, processOk := false,
          patchOk := true }
      = { exitCode := 1, tempCreated := true, tempRemoved := false } := by
  rfl

/-- C7 (amended): on a remote-image run the transient file is removed by
the end of the run whenever normalization succeeds — in particular even
when the later listing patch fails; when normalization itself fails the
process exits first and the file is left behind. -/
theorem c7_cleanup_after_process (env : PubEnv)
    (hurl : env.imageIsUrl = true) (hext : env.extractOk = true)
    (hdl : env.downloadOk = true) (hproc : env.processOk = true) :
    (publisher_main env).tempRemoved = true := by
  simp only [publisher_main, hurl, hext, hdl, hproc]
  cases hp : env.patchOk <;> simp [hp]

/-- Witness for C7 (amended): a run whose listing patch fails still
removes the transient file. -/
theorem c7_cleanup_after_process_witness :
    (publisher_main
        { gitOk := false, extractOk := true, imageIsUrl := true,
          localExists := false, downloadOk := true, processOk := true,
          patchOk := false }).tempRemoved = true :=
  c7_cleanup_after_process _ rfl rfl rfl rfl

end GGI
